import Mathlib

/-!
# container-selector: verification of `cmd/root.go`

The program has one function, `run` (root.go:44-184).  It lists the running
containers, selects one (by substring filter or with a fuzzy picker), resolves
the command to run, plans the `docker exec` argument vector and maps the
outcome of the child process to an error.

Go strings are modelled by Lean `String`s, that is by sequences of Unicode
scalar values: the model covers the Go strings that are valid UTF-8.  On such
strings the byte-level functions of package `strings` used by `run`
(`Contains`, `ContainsAny`, `TrimPrefix`, `TrimSpace`, `Fields`, `ToLower`)
act rune by rune, which is how they are written below.

Effects (writes to the standard streams, the read of standard input, the
launch of the child process) are recorded in an explicit trace.
-/

namespace ContainerSelector

/-! ## Package `strings` and `unicode` -/

/-- Go `unicode.IsSpace`: the Latin-1 spaces `'\t' '\n' '\v' '\f' '\r' ' '`,
U+0085, U+00A0 and the other code points with the `White_Space` property. -/
def IsSpace (r : Char) : Bool :=
  let n := r.toNat
  (0x09 ≤ n && n ≤ 0x0D) || n == 0x20 || n == 0x85 || n == 0xA0 ||
  n == 0x1680 || (0x2000 ≤ n && n ≤ 0x200A) || n == 0x2028 || n == 0x2029 ||
  n == 0x202F || n == 0x205F || n == 0x3000

/-- Go `strings.ToLower`: maps every rune through `unicode.ToLower`.  The
Unicode case table belongs to the Go standard library and is taken as the
parameter `lower`. -/
def ToLower (lower : Char → Char) (s : String) : String :=
  ⟨s.data.map lower⟩

/-- Substring search on rune lists: does `sub` occur in `s`? -/
def containsList : List Char → List Char → Bool
  | [], sub => sub.isEmpty
  | c :: cs, sub => sub.isPrefixOf (c :: cs) || containsList cs sub

/-- Go `strings.Contains(s, substr)`. -/
def Contains (s substr : String) : Bool :=
  containsList s.data substr.data

/-- Go `strings.ContainsAny(s, chars)`: some rune of `chars` occurs in `s`. -/
def ContainsAny (s chars : String) : Bool :=
  s.data.any (fun c => chars.data.contains c)

/-- Go `strings.TrimPrefix(s, pre)`: `s` without the leading `pre`, or `s`
itself when it does not start with `pre`. -/
def TrimPrefix (s pre : String) : String :=
  if pre.data.isPrefixOf s.data then ⟨s.data.drop pre.data.length⟩ else s

/-- Go `strings.TrimSpace`: drops the leading and the trailing white space. -/
def TrimSpace (s : String) : String :=
  ⟨List.rdropWhile IsSpace (List.dropWhile IsSpace s.data)⟩

/-- The scanning loop of Go `strings.Fields`: `cur` holds, reversed, the runes
of the field being read. -/
def fieldsLoop : List Char → List Char → List String
  | cur, [] => if cur.isEmpty then [] else [⟨cur.reverse⟩]
  | cur, c :: cs =>
    if IsSpace c then
      if cur.isEmpty then fieldsLoop [] cs else ⟨cur.reverse⟩ :: fieldsLoop [] cs
    else fieldsLoop (c :: cur) cs

/-- Go `strings.Fields`: the maximal runs of non-space runes of `s`. -/
def Fields (s : String) : List String :=
  fieldsLoop [] s.data

/-! ## Data model -/

/-- Docker API `types.Container`: the fields that `run` reads. -/
structure Container where
  ID : String
  Names : List String
  Image : String
deriving DecidableEq, Repr

/-- Observable actions of `run`, in the order they happen. -/
inductive Effect where
  /-- A write to standard output by `fmt.Print` or `fmt.Printf`. -/
  | stdout (s : String)
  /-- A write to the diagnostic stream by `fmt.Fprintf(os.Stderr, ...)`. -/
  | stderr (s : String)
  /-- The read of one line of `os.Stdin` by `reader.ReadString`. -/
  | readStdin
  /-- The launch of the child by `exec.Command("docker", argv...).Run()`. -/
  | exec (argv : List String)
deriving DecidableEq, Repr

/-- How a stage of `run` ends: it goes on with a value, returns an `error`
built by `fmt.Errorf` (kept as its message), or panics at run time (index out
of range). -/
inductive Outcome (α : Type) where
  | ok (a : α)
  | error (msg : String)
  | panic
deriving DecidableEq, Repr

/-- The result of the selection stage: the variables `selectedContainer` and
`containerName` of `run`. -/
structure Selected where
  selectedContainer : Container
  containerName : String
deriving DecidableEq, Repr

/-- Standard input as `run` sees it: the runes that can still be read, and the
message of the error that ends the stream after them (`io.EOF` is `"EOF"`). -/
structure Stdin where
  pending : String
  endErr : String
deriving DecidableEq, Repr

/-- The error value returned by `dockerCmd.Run()`, with the text of its
`Error()` method. -/
inductive RunErr where
  /-- An `*exec.ExitError`; `exitCode` is what `ExitCode()` returns. -/
  | exitError (exitCode : Int) (text : String)
  /-- Any other error: the process could not be started or waited for. -/
  | other (text : String)
deriving DecidableEq, Repr

/-- What happens to the `docker exec` child process. -/
inductive Child where
  /-- The process ran and exited with this status. -/
  | exited (code : Int)
  /-- The process was terminated by a signal. -/
  | signaled (sig : String)
  /-- The process could not be started or run (for instance no `docker`
  binary). -/
  | failed (text : String)
deriving DecidableEq, Repr

/-! ## Selection (root.go:64-115) -/

/-- The loop of root.go:72-81: appends to `matched` every container whose
lowercase name or image contains `filterLower`.  `none` is the panic of
`c.Names[0]` on a container without a name. -/
def filterLoop (lower : Char → Char) (filterLower : String) :
    List Container → List Container → Option (List Container)
  | [], matched => some matched
  | c :: rest, matched =>
    match c.Names[0]? with
    | none => none
    | some n0 =>
      let name := TrimPrefix n0 "/"
      let nameLower := ToLower lower name
      let imageLower := ToLower lower c.Image
      if Contains nameLower filterLower || Contains imageLower filterLower then
        filterLoop lower filterLower rest (matched ++ [c])
      else
        filterLoop lower filterLower rest matched

/-- The loop of root.go:88-91: one diagnostic line per element of `matched`. -/
def listLoop : List Container → Option (List Effect)
  | [] => some []
  | c :: rest =>
    match c.Names[0]? with
    | none => none
    | some n0 =>
      let name := TrimPrefix n0 "/"
      (listLoop rest).map
        (fun es => Effect.stderr ("  - " ++ name ++ " (" ++ c.Image ++ ")\n") :: es)

/-- Filter mode, root.go:68-97. -/
def selectByFilter (lower : Char → Char) (filter : String) (containers : List Container) :
    List Effect × Outcome Selected :=
  let filterLower := ToLower lower filter
  match filterLoop lower filterLower containers [] with
  | none => ([], .panic)
  | some matched =>
    if matched.length == 0 then
      ([], .error ("no containers found matching filter: " ++ filter))
    else if matched.length > 1 then
      let header := Effect.stderr ("Multiple containers match filter '" ++ filter ++ "':\n")
      match listLoop matched with
      | none => ([header], .panic)
      | some lines => (header :: lines, .error "please use a more specific filter")
    else
      match matched[0]? with
      | none => ([], .panic)
      | some selectedContainer =>
        match selectedContainer.Names[0]? with
        | none => ([], .panic)
        | some n0 =>
          let containerName := TrimPrefix n0 "/"
          ([.stdout ("Auto-selected container: " ++ containerName ++ "\n")],
            .ok ⟨selectedContainer, containerName⟩)

/-- The labels handed to the fuzzy finder (root.go:102-106), one per
container. -/
def pickerLabels : List Container → Option (List String)
  | [] => some []
  | c :: rest =>
    match c.Names[0]? with
    | none => none
    | some n0 => (pickerLabels rest).map (fun ls => TrimPrefix n0 "/" :: ls)

/-- Interactive mode, root.go:99-114.  `find` stands for `fuzzyfinder.Find`:
from the labels it gives the index the operator chose, or `none` when it
returns an error. -/
def selectByPicker (find : List String → Option Nat) (containers : List Container) :
    List Effect × Outcome Selected :=
  match pickerLabels containers with
  | none => ([], .panic)
  | some labels =>
    match find labels with
    | none => ([], .error "container selection cancelled")
    | some idx =>
      match containers[idx]? with
      | none => ([], .panic)
      | some selectedContainer =>
        match selectedContainer.Names[0]? with
        | none => ([], .panic)
        | some n0 => ([], .ok ⟨selectedContainer, TrimPrefix n0 "/"⟩)

/-- The selection stage, root.go:64-115: filter mode when `filter != ""`,
the fuzzy finder otherwise. -/
def selectContainer (lower : Char → Char) (find : List String → Option Nat)
    (filter : String) (containers : List Container) : List Effect × Outcome Selected :=
  if filter != "" then selectByFilter lower filter containers
  else selectByPicker find containers

/-! ## Command resolution (root.go:117-138) -/

/-- The runes of `l` up to and including the first `delim`, if there is one. -/
def readUntil (delim : Char) : List Char → Option (List Char)
  | [] => none
  | c :: cs => if c = delim then some [c] else (readUntil delim cs).map (fun l => c :: l)

/-- Go `bufio.Reader.ReadString(delim)` on standard input: the text up to and
including the first `delim` and no error; when the stream ends before a
`delim`, everything read so far and the error that ended the stream. -/
def ReadString (stdin : Stdin) (delim : Char) : String × Option String :=
  match readUntil delim stdin.pending.data with
  | some line => (⟨line⟩, none)
  | none => (stdin.pending, some stdin.endErr)

/-- The command resolver, root.go:117-138; the value is `userCmd`. -/
def resolveCommand (command : String) (noPrompt : Bool) (stdin : Stdin) :
    List Effect × Outcome String :=
  if command != "" then
    ([], .ok command)
  else if noPrompt then
    ([], .ok "bash")
  else
    let prompt := Effect.stdout "Enter command to run inside container [default: bash]: "
    match ReadString stdin '\n' with
    | (_, some err) => ([prompt, .readStdin], .error ("failed to read command: " ++ err))
    | (input, none) =>
      let userCmd := TrimSpace input
      ([prompt, .readStdin], .ok (if userCmd == "" then "bash" else userCmd))

/-! ## Exec planning (root.go:140-168) -/

/-- The flag `isInteractiveShell` of root.go:148. -/
def isInteractiveShell (cmdParts : List String) : Bool :=
  cmdParts.length == 1 &&
    (cmdParts[0]? == some "bash" || cmdParts[0]? == some "sh" || cmdParts[0]? == some "zsh")

/-- The shell metacharacters of root.go:164. -/
def shellChars : String := "|&;<>()$`\\\"'"

/-- The argument vector `dockerArgs` built at root.go:141-168. -/
def dockerArgs (userCmd containerName : String) (stdinIsTTY : Bool) : List String :=
  let cmdParts := Fields userCmd
  let args := ["exec"]
  let args := if isInteractiveShell cmdParts && stdinIsTTY then args ++ ["-it"] else args ++ ["-i"]
  let args := args ++ [containerName]
  if ContainsAny userCmd shellChars || Contains userCmd " " then
    args ++ ["sh", "-c", userCmd]
  else
    args ++ cmdParts

/-! ## Running the child (root.go:170-183) -/

/-- Go `(*exec.Cmd).Run` with the three streams inherited: `nil` when the
child exits with status 0, an `*exec.ExitError` when it exits with another
status or is killed by a signal (`ExitCode()` is then -1), another error when
it cannot be started. -/
def cmdRun : Child → Option RunErr
  | .exited code =>
    if code = 0 then none else some (.exitError code ("exit status " ++ toString code))
  | .signaled sig => some (.exitError (-1) ("signal: " ++ sig))
  | .failed text => some (.other text)

/-- The mapping of the error of `dockerCmd.Run()`, root.go:175-183. -/
def execResult : Option RunErr → Outcome Unit
  | none => .ok ()
  | some (.exitError exitCode text) =>
    if exitCode != 0 then .error ("command exited with status " ++ toString exitCode)
    else .error ("failed to execute docker exec: " ++ text)
  | some (.other text) => .error ("failed to execute docker exec: " ++ text)

/-! ## The whole of `run` (root.go:44-184) -/

/-- Everything `run` reads from outside: the flags, the Docker daemon, the
operator, standard input and the child process. -/
structure Env where
  command : String
  noPrompt : Bool
  filter : String
  /-- The case table `unicode.ToLower` of the Go standard library. -/
  lower : Char → Char
  /-- The error of `client.NewClientWithOpts`, if any. -/
  clientErr : Option String
  /-- The result of `cli.ContainerList`. -/
  containerList : Except String (List Container)
  /-- The choice made in `fuzzyfinder.Find` from the labels shown, `none` when
  it returns an error. -/
  find : List String → Option Nat
  stdin : Stdin
  /-- The value of `term.IsTerminal(int(os.Stdin.Fd()))`. -/
  stdinIsTTY : Bool
  /-- The fate of the child started with a given argument vector. -/
  child : List String → Child

/-- Sequencing of two stages: the second runs when the first goes on. -/
def andThen {α β : Type} (p : List Effect × Outcome α)
    (k : α → List Effect × Outcome β) : List Effect × Outcome β :=
  match p.2 with
  | .ok a => (p.1 ++ (k a).1, (k a).2)
  | .error msg => (p.1, .error msg)
  | .panic => (p.1, .panic)

/-- The function `run`, root.go:44-184. -/
def run (env : Env) : List Effect × Outcome Unit :=
  match env.clientErr with
  | some err => ([], .error ("failed to create Docker client: " ++ err))
  | none =>
    match env.containerList with
    | .error err => ([], .error ("failed to list containers: " ++ err))
    | .ok containers =>
      if containers.length == 0 then
        ([], .error "no running containers found")
      else
        andThen (selectContainer env.lower env.find env.filter containers) fun sel =>
        andThen (resolveCommand env.command env.noPrompt env.stdin) fun userCmd =>
          let argv := dockerArgs userCmd sel.containerName env.stdinIsTTY
          ([.exec argv], execResult (cmdRun (env.child argv)))

/-! ## Evaluation on small inputs -/

/-- The container `web-1` of the scenarios, with image `nginx`; the daemon
reports names with a leading `"/"`. -/
def web1 : Container := ⟨"a1", ["/web-1"], "nginx"⟩

/-- The container `db-1` of the scenarios, with image `postgres`. -/
def db1 : Container := ⟨"b2", ["/db-1"], "postgres"⟩

example : selectByFilter Char.toLower "nginx" [web1, db1] =
    ([.stdout "Auto-selected container: web-1\n"], .ok ⟨web1, "web-1"⟩) := by decide
example : selectByFilter Char.toLower "-1" [web1, db1] =
    ([.stderr "Multiple containers match filter '-1':\n", .stderr "  - web-1 (nginx)\n",
      .stderr "  - db-1 (postgres)\n"], .error "please use a more specific filter") := by decide
example : dockerArgs "echo hi" "web-1" true = ["exec", "-i", "web-1", "sh", "-c", "echo hi"] := by
  decide
example : dockerArgs "bash" "web-1" true = ["exec", "-it", "web-1", "bash"] := by decide
example : dockerArgs "ls\t-la" "web-1" true = ["exec", "-i", "web-1", "ls", "-la"] := by decide
example : resolveCommand "" false ⟨"ls", "EOF"⟩ =
    ([.stdout "Enter command to run inside container [default: bash]: ", .readStdin],
      .error "failed to read command: EOF") := by decide
example : resolveCommand "" false ⟨"  ls -la \nrest", "EOF"⟩ =
    ([.stdout "Enter command to run inside container [default: bash]: ", .readStdin],
      .ok "ls -la") := by decide
example : execResult (cmdRun (.exited 7)) = .error "command exited with status 7" := by decide

/-! ## Specification vocabulary -/

/-- The display name of a container: its first name alias without one leading
`"/"`. -/
def displayName (c : Container) : String :=
  TrimPrefix (c.Names.headD "") "/"

/-- The filter `F` matches the container `c`: the lowercase form of `F` is a
substring of the lowercase display name or of the lowercase image of `c`. -/
def MatchesFilter (lower : Char → Char) (F : String) (c : Container) : Prop :=
  (ToLower lower F).data <:+: (ToLower lower (displayName c)).data ∨
    (ToLower lower F).data <:+: (ToLower lower c.Image).data

instance (lower : Char → Char) (F : String) : DecidablePred (MatchesFilter lower F) :=
  fun c => by unfold MatchesFilter; infer_instance

/-- The diagnostic line written for a candidate container. -/
def candidateLine (c : Container) : Effect :=
  .stderr ("  - " ++ displayName c ++ " (" ++ c.Image ++ ")\n")

/-- The fixed set of shell metacharacters, rune by rune: `|`, `&`, `;`, `<`,
`>`, `(`, `)`, `$`, the backquote (U+0060), the backslash, the double quote
(U+0022) and the single quote (U+0027). -/
def metaChars : List Char :=
  ['|', '&', ';', '<', '>', '(', ')', '$', Char.ofNat 0x60, '\\', Char.ofNat 0x22,
    Char.ofNat 0x27]

/-- A command is an interactive shell when splitting it on white space yields
one single token and that token is `bash`, `sh` or `zsh`. -/
def InteractiveShell (userCmd : String) : Prop :=
  ∃ tok, Fields userCmd = [tok] ∧ (tok = "bash" ∨ tok = "sh" ∨ tok = "zsh")

/-- The string `t` is `s` with the surrounding white space trimmed: `s` is
`t` between two runs of white space, and `t` neither starts nor ends with
white space. -/
def IsTrimmedOf (t s : String) : Prop :=
  ∃ pre post : List Char, s.data = pre ++ t.data ++ post ∧
    (∀ ch ∈ pre, IsSpace ch = true) ∧ (∀ ch ∈ post, IsSpace ch = true) ∧
    (∀ ch, t.data.head? = some ch → IsSpace ch = false) ∧
    (∀ ch, t.data.getLast? = some ch → IsSpace ch = false)

/-- The effects of the prompted branch of the command resolver: the prompt is
written, then standard input is read. -/
def promptEffects : List Effect :=
  [.stdout "Enter command to run inside container [default: bash]: ", .readStdin]

/-- An environment for the scenarios: the two containers `web-1` and `db-1`
are running, `--no-prompt` is given, standard input is a terminal with
nothing typed, and the child process ends as `child` says. -/
def scenario (filter : String) (child : Child) : Env where
  command := ""
  noPrompt := true
  filter := filter
  lower := Char.toLower
  clientErr := none
  containerList := .ok [web1, db1]
  find := fun _ => none
  stdin := ⟨"", "EOF"⟩
  stdinIsTTY := true
  child := fun _ => child

/-! ## Lemmas on the string functions -/

theorem containsList_iff (s sub : List Char) : containsList s sub = true ↔ sub <:+: s := by
  induction s with
  | nil => simp [containsList]
  | cons c cs ih =>
    simp only [containsList, Bool.or_eq_true, ih, List.isPrefixOf_iff_prefix]
    exact (List.infix_cons_iff).symm

theorem Contains_iff (s sub : String) : Contains s sub = true ↔ sub.data <:+: s.data :=
  containsList_iff s.data sub.data

/-- On a container with a name the test of root.go:78 is `MatchesFilter`. -/
theorem codeTest_iff (lower : Char → Char) (F : String) (c : Container) (n0 : String)
    (h : c.Names[0]? = some n0) :
    (Contains (ToLower lower (TrimPrefix n0 "/")) (ToLower lower F) ||
      Contains (ToLower lower c.Image) (ToLower lower F)) = decide (MatchesFilter lower F c) := by
  have hd : displayName c = TrimPrefix n0 "/" := by
    unfold displayName
    cases hn : c.Names with
    | nil => simp [hn] at h
    | cons a t => simp [hn] at h; simp [h]
  rw [Bool.eq_iff_iff]
  simp only [Bool.or_eq_true, Contains_iff, decide_eq_true_eq, MatchesFilter, hd]

theorem filterLoop_eq (lower : Char → Char) (F : String) (C : List Container)
    (hN : ∀ x ∈ C, x.Names ≠ []) (acc : List Container) :
    filterLoop lower (ToLower lower F) C acc =
      some (acc ++ C.filter (fun x => decide (MatchesFilter lower F x))) := by
  induction C generalizing acc with
  | nil => simp [filterLoop]
  | cons c rest ih =>
    have hc : c.Names ≠ [] := hN c (List.mem_cons_self _ _)
    have hrest : ∀ x ∈ rest, x.Names ≠ [] := fun x hx => hN x (List.mem_cons_of_mem _ hx)
    obtain ⟨n0, hn0⟩ : ∃ n0, c.Names[0]? = some n0 := by
      cases hn : c.Names with
      | nil => exact absurd hn hc
      | cons a t => exact ⟨a, by simp⟩
    simp only [filterLoop, hn0, codeTest_iff lower F c n0 hn0]
    by_cases hm : MatchesFilter lower F c
    · simp [hm, ih hrest, List.filter_cons]
    · simp [hm, ih hrest, List.filter_cons]

theorem listLoop_eq (M : List Container) (hN : ∀ x ∈ M, x.Names ≠ []) :
    listLoop M = some (M.map candidateLine) := by
  induction M with
  | nil => simp [listLoop]
  | cons c rest ih =>
    have hc : c.Names ≠ [] := hN c (List.mem_cons_self _ _)
    have hrest : ∀ x ∈ rest, x.Names ≠ [] := fun x hx => hN x (List.mem_cons_of_mem _ hx)
    cases hn : c.Names with
    | nil => exact absurd hn hc
    | cons a t => simp [listLoop, hn, ih hrest, candidateLine, displayName]

theorem filter_eq_singleton {α : Type} (p : α → Bool) (l : List α) (c : α)
    (hc : c ∈ l) (hp : p c = true) (h1 : l.countP p = 1) : l.filter p = [c] := by
  have hlen : (l.filter p).length = 1 := by rw [← List.countP_eq_length_filter]; exact h1
  have hmem : c ∈ l.filter p := List.mem_filter.mpr ⟨hc, hp⟩
  match hf : l.filter p, hlen, hmem with
  | [x], _, hmem => simpa using (List.mem_singleton.mp hmem).symm

/-- Filter mode on containers that all have a name: the outcome in terms of
the list of matching containers. -/
theorem selectByFilter_eq (lower : Char → Char) (F : String) (C : List Container)
    (hN : ∀ x ∈ C, x.Names ≠ []) :
    selectByFilter lower F C =
      match C.filter (fun x => decide (MatchesFilter lower F x)) with
      | [] => ([], .error ("no containers found matching filter: " ++ F))
      | [c] => ([.stdout ("Auto-selected container: " ++ displayName c ++ "\n")],
                .ok ⟨c, displayName c⟩)
      | c :: d :: M =>
        (.stderr ("Multiple containers match filter '" ++ F ++ "':\n") ::
          (c :: d :: M).map candidateLine, .error "please use a more specific filter") := by
  unfold selectByFilter
  simp only [filterLoop_eq lower F C hN, List.nil_append]
  have hM : ∀ x ∈ C.filter (fun x => decide (MatchesFilter lower F x)), x.Names ≠ [] :=
    fun x hx => hN x (List.mem_filter.mp hx).1
  match hf : C.filter (fun x => decide (MatchesFilter lower F x)), hM with
  | [], _ => simp
  | [c], hM =>
    have hc : c.Names ≠ [] := hM c (List.mem_singleton_self c)
    cases hn : c.Names with
    | nil => exact absurd hn hc
    | cons a t => simp [hn, displayName]
  | c :: d :: M, hM =>
    simp [listLoop_eq (c :: d :: M) hM]

theorem selectContainer_filter (lower : Char → Char) (find : List String → Option Nat)
    (F : String) (C : List Container) (hF : F ≠ "") :
    selectContainer lower find F C = selectByFilter lower F C := by
  simp [selectContainer, hF]

theorem run_select_error (env : Env) (C : List Container) (es : List Effect) (msg : String)
    (hcl : env.clientErr = none) (hC : env.containerList = .ok C) (hne : C ≠ [])
    (hsel : selectContainer env.lower env.find env.filter C = (es, .error msg)) :
    run env = (es, .error msg) := by
  have hlen : C.length ≠ 0 := fun h => hne (List.length_eq_zero.mp h)
  simp [run, hcl, hC, hlen, hsel, andThen]

theorem run_exec (env : Env) (C : List Container) (sel : Selected) (userCmd : String)
    (e1 e2 : List Effect)
    (hcl : env.clientErr = none) (hC : env.containerList = .ok C) (hne : C ≠ [])
    (hsel : selectContainer env.lower env.find env.filter C = (e1, .ok sel))
    (hres : resolveCommand env.command env.noPrompt env.stdin = (e2, .ok userCmd)) :
    run env =
      (e1 ++ (e2 ++ [.exec (dockerArgs userCmd sel.containerName env.stdinIsTTY)]),
        execResult (cmdRun (env.child (dockerArgs userCmd sel.containerName env.stdinIsTTY)))) := by
  have hlen : C.length ≠ 0 := fun h => hne (List.length_eq_zero.mp h)
  simp [run, hcl, hC, hlen, hsel, hres, andThen]

/-- The shape of the argument vector: `exec`, the mode flag, the container
name, then the command part. -/
theorem dockerArgs_eq (userCmd containerName : String) (stdinIsTTY : Bool) :
    dockerArgs userCmd containerName stdinIsTTY =
      "exec" :: (if isInteractiveShell (Fields userCmd) && stdinIsTTY then "-it" else "-i") ::
        containerName ::
        (if ContainsAny userCmd shellChars || Contains userCmd " " then ["sh", "-c", userCmd]
          else Fields userCmd) := by
  unfold dockerArgs
  by_cases h1 : (isInteractiveShell (Fields userCmd) && stdinIsTTY) = true <;>
    by_cases h2 : (ContainsAny userCmd shellChars || Contains userCmd " ") = true <;>
    simp only [h1, h2, if_true, if_false, List.cons_append, List.nil_append,
      List.singleton_append, Bool.false_eq_true]

/-! ## Selection: the claims -/

/-- C1. Filter mode with exactly one match.  For every non-empty filter `F`
and every list `C` of containers that all have a name, as returned by the
Docker daemon: when `c` is the one container of `C` that `F` matches
(lowercase `F` is a substring of its lowercase display name or image),
selection succeeds with `c`; the confirmation written to standard output
names the display name of `c`; and in every such run that resolves a command,
the `docker exec` that is launched has that display name as its target. -/
theorem filter_mode_unique_match (env : Env) (C : List Container) (c : Container)
    (hcl : env.clientErr = none) (hC : env.containerList = .ok C)
    (hF : env.filter ≠ "") (hN : ∀ x ∈ C, x.Names ≠ [])
    (hc : c ∈ C) (hm : MatchesFilter env.lower env.filter c)
    (h1 : C.countP (fun x => decide (MatchesFilter env.lower env.filter x)) = 1) :
    selectContainer env.lower env.find env.filter C =
        ([.stdout ("Auto-selected container: " ++ displayName c ++ "\n")],
          .ok ⟨c, displayName c⟩) ∧
    ∀ (e2 : List Effect) (userCmd : String),
      resolveCommand env.command env.noPrompt env.stdin = (e2, .ok userCmd) →
      ∃ flag cmd,
        (run env).1 =
          .stdout ("Auto-selected container: " ++ displayName c ++ "\n") ::
            (e2 ++ [.exec ("exec" :: flag :: displayName c :: cmd)]) := by
  have hsel : selectContainer env.lower env.find env.filter C =
      ([.stdout ("Auto-selected container: " ++ displayName c ++ "\n")],
        .ok ⟨c, displayName c⟩) := by
    rw [selectContainer_filter env.lower env.find env.filter C hF,
      selectByFilter_eq env.lower env.filter C hN,
      filter_eq_singleton _ C c hc (by simpa using hm) h1]
  refine ⟨hsel, ?_⟩
  intro e2 userCmd hres
  have hne : C ≠ [] := List.ne_nil_of_mem hc
  rw [run_exec env C _ userCmd _ e2 hcl hC hne hsel hres, dockerArgs_eq]
  exact ⟨_, _, rfl⟩

/-- C1, the scenario of the specification: with the containers `web-1`
(image `nginx`) and `db-1` (image `postgres`) the filter `nginx` selects
`web-1`, and the command is run in `web-1`. -/
theorem filter_mode_unique_match_witness :
    [web1, db1].countP (fun x => decide (MatchesFilter Char.toLower "nginx" x)) = 1 ∧
    selectContainer Char.toLower (fun _ => none) "nginx" [web1, db1] =
      ([.stdout "Auto-selected container: web-1\n"], .ok ⟨web1, "web-1"⟩) ∧
    ∃ flag cmd,
      (run (scenario "nginx" (.exited 0))).1 =
        [.stdout "Auto-selected container: web-1\n", .exec ("exec" :: flag :: "web-1" :: cmd)] :=
  ⟨by decide,
    (filter_mode_unique_match (scenario "nginx" (.exited 0)) [web1, db1] web1 rfl rfl
      (by decide) (by decide) (by decide) (by decide) (by decide)).1,
    (filter_mode_unique_match (scenario "nginx" (.exited 0)) [web1, db1] web1 rfl rfl
      (by decide) (by decide) (by decide) (by decide) (by decide)).2 [] "bash" rfl⟩

/-- C2. Filter mode failures.  For every non-empty filter `F` and every
non-empty list `C` of containers that all have a name, as returned by the
Docker daemon: when `F` matches no container, `run` writes nothing and fails
with `no containers found matching filter: F`; when `F` matches two or more,
`run` writes to the diagnostic stream the heading and then one
`  - name (image)` line for each matching container and for no other, in the
order of `C`, writes nothing else, and fails with
`please use a more specific filter`. -/
theorem filter_mode_failures (env : Env) (C : List Container)
    (hcl : env.clientErr = none) (hC : env.containerList = .ok C) (hne : C ≠ [])
    (hF : env.filter ≠ "") (hN : ∀ x ∈ C, x.Names ≠ []) :
    ((∀ c ∈ C, ¬ MatchesFilter env.lower env.filter c) →
      run env = ([], .error ("no containers found matching filter: " ++ env.filter))) ∧
    (2 ≤ C.countP (fun x => decide (MatchesFilter env.lower env.filter x)) →
      run env =
        (.stderr ("Multiple containers match filter '" ++ env.filter ++ "':\n") ::
          (C.filter (fun x => decide (MatchesFilter env.lower env.filter x))).map candidateLine,
         .error "please use a more specific filter")) := by
  have hsel := selectByFilter_eq env.lower env.filter C hN
  rw [← selectContainer_filter env.lower env.find env.filter C hF] at hsel
  constructor
  · intro hno
    apply run_select_error env C _ _ hcl hC hne
    have hnil : C.filter (fun x => decide (MatchesFilter env.lower env.filter x)) = [] :=
      List.filter_eq_nil_iff.mpr (fun x hx => by simpa using hno x hx)
    rw [hsel, hnil]
  · intro h2
    apply run_select_error env C _ _ hcl hC hne
    rw [List.countP_eq_length_filter] at h2
    rw [hsel]
    match hf : C.filter (fun x => decide (MatchesFilter env.lower env.filter x)), h2 with
    | c :: d :: M, _ => rfl

/-- C2, the scenario of the specification: the filter `-1` matches both
`web-1` and `db-1`, so `run` lists both and fails; the filter `redis` matches
neither. -/
theorem filter_mode_failures_witness :
    run (scenario "-1" (.exited 0)) =
      ([.stderr "Multiple containers match filter '-1':\n", .stderr "  - web-1 (nginx)\n",
        .stderr "  - db-1 (postgres)\n"], .error "please use a more specific filter") ∧
    run (scenario "redis" (.exited 0)) = ([], .error "no containers found matching filter: redis") :=
  ⟨(filter_mode_failures (scenario "-1" (.exited 0)) [web1, db1] rfl rfl (by decide) (by decide)
      (by decide)).2 (by decide),
   (filter_mode_failures (scenario "redis" (.exited 0)) [web1, db1] rfl rfl (by decide) (by decide)
      (by decide)).1 (by decide)⟩

/-! ## Exec planning: lemmas -/

theorem Contains_space_iff (s : String) : Contains s " " = true ↔ ' ' ∈ s.data := by
  rw [Contains_iff]
  show [' '] <:+: s.data ↔ ' ' ∈ s.data
  constructor
  · intro h
    exact h.subset (List.mem_singleton_self _)
  · intro h
    obtain ⟨a, b, hab⟩ := List.append_of_mem h
    exact ⟨a, b, by simp [hab]⟩

theorem ContainsAny_shellChars_iff (s : String) :
    ContainsAny s shellChars = true ↔ ∃ ch ∈ s.data, ch ∈ metaChars := by
  have h : shellChars.data = metaChars := by decide
  simp [ContainsAny, h]

theorem isInteractiveShell_iff (userCmd : String) :
    isInteractiveShell (Fields userCmd) = true ↔ InteractiveShell userCmd := by
  unfold isInteractiveShell InteractiveShell
  match Fields userCmd with
  | [] => simp
  | [t] => simp [or_assoc]
  | a :: b :: r => simp

theorem modeFlag_cases (b : Bool) :
    (if b = true then "-it" else "-i" : String) = "-it" ∨
      (if b = true then "-it" else "-i" : String) = "-i" := by
  cases b <;> simp

theorem fieldsLoop_ne_empty (cs cur : List Char) : ∀ t ∈ fieldsLoop cur cs, t ≠ "" := by
  induction cs generalizing cur with
  | nil =>
    intro t ht
    cases cur with
    | nil => simp [fieldsLoop] at ht
    | cons a l =>
      simp [fieldsLoop] at ht
      subst ht
      intro h
      have := congrArg String.data h
      simp at this
  | cons c cs ih =>
    intro t ht
    unfold fieldsLoop at ht
    by_cases hsp : IsSpace c = true
    · cases cur with
      | nil =>
        simp [hsp] at ht
        exact ih [] t ht
      | cons a l =>
        simp [hsp] at ht
        rcases ht with ht | ht
        · subst ht
          intro h
          have := congrArg String.data h
          simp at this
        · exact ih [] t ht
    · simp [hsp] at ht
      exact ih (c :: cur) t ht

theorem fieldsLoop_ne_nil (cs cur : List Char)
    (h : cur ≠ [] ∨ ∃ ch ∈ cs, IsSpace ch = false) : fieldsLoop cur cs ≠ [] := by
  induction cs generalizing cur with
  | nil =>
    rcases h with h | ⟨ch, hch, _⟩
    · cases cur with
      | nil => exact absurd rfl h
      | cons a l => simp [fieldsLoop]
    · simp at hch
  | cons c cs ih =>
    unfold fieldsLoop
    by_cases hsp : IsSpace c = true
    · cases cur with
      | nil =>
        simp only [hsp, if_true, List.isEmpty_nil]
        apply ih
        rcases h with h | ⟨ch, hch, hns⟩
        · exact absurd rfl h
        · right
          rcases List.mem_cons.mp hch with rfl | hmem
          · rw [hsp] at hns; cases hns
          · exact ⟨ch, hmem, hns⟩
      | cons a l => simp [hsp]
    · simp only [hsp, if_false, Bool.false_eq_true]
      exact ih (c :: cur) (Or.inl (List.cons_ne_nil _ _))

theorem Fields_ne_empty (s : String) : ∀ t ∈ Fields s, t ≠ "" :=
  fieldsLoop_ne_empty s.data []

theorem Fields_ne_nil (s : String) (h : ∃ ch ∈ s.data, IsSpace ch = false) : Fields s ≠ [] :=
  fieldsLoop_ne_nil s.data [] (Or.inr h)

/-! ## Exec planning: the claims -/

/-- C3. Shell-wrapping law.  For every command that contains a space
character, every container name and either TTY state, the argument vector is
`exec`, a mode flag, the container name, and then exactly `sh`, `-c` and the
command string itself, unchanged. -/
theorem shell_wrapping_law (userCmd containerName : String) (stdinIsTTY : Bool)
    (h : ' ' ∈ userCmd.data) :
    ∃ flag, (flag = "-it" ∨ flag = "-i") ∧
      dockerArgs userCmd containerName stdinIsTTY =
        ["exec", flag, containerName, "sh", "-c", userCmd] := by
  refine ⟨if (isInteractiveShell (Fields userCmd) && stdinIsTTY) = true then "-it" else "-i",
    modeFlag_cases _, ?_⟩
  rw [dockerArgs_eq, (Contains_space_iff userCmd).mpr h]
  simp

/-- C3, the scenario of the specification: `echo hi` is wrapped as
`sh -c "echo hi"` whether or not standard input is a terminal, and a command
with a run of spaces keeps them. -/
theorem shell_wrapping_law_witness :
    (∃ flag, (flag = "-it" ∨ flag = "-i") ∧
      dockerArgs "echo hi" "web-1" true = ["exec", flag, "web-1", "sh", "-c", "echo hi"]) ∧
    (∃ flag, (flag = "-it" ∨ flag = "-i") ∧
      dockerArgs "echo hi" "web-1" false = ["exec", flag, "web-1", "sh", "-c", "echo hi"]) ∧
    (∃ flag, (flag = "-it" ∨ flag = "-i") ∧
      dockerArgs "echo   hi " "web-1" false =
        ["exec", flag, "web-1", "sh", "-c", "echo   hi "]) :=
  ⟨shell_wrapping_law "echo hi" "web-1" true (by decide),
   shell_wrapping_law "echo hi" "web-1" false (by decide),
   shell_wrapping_law "echo   hi " "web-1" false (by decide)⟩

/-- C4. TTY decision.  For every command, container name and TTY state the
argument vector starts with `exec` and its mode flag is `-it` exactly when
standard input is a terminal and the command is an interactive shell (one
single token, equal to `bash`, `sh` or `zsh`); in every other case the flag
is `-i`.  So `bash -l` never gets `-it`, and `bash` on a terminal does. -/
theorem tty_decision (userCmd containerName : String) (stdinIsTTY : Bool) :
    (dockerArgs userCmd containerName stdinIsTTY)[0]? = some "exec" ∧
    ((dockerArgs userCmd containerName stdinIsTTY)[1]? = some "-it" ↔
      (stdinIsTTY = true ∧ InteractiveShell userCmd)) ∧
    (¬ (stdinIsTTY = true ∧ InteractiveShell userCmd) →
      (dockerArgs userCmd containerName stdinIsTTY)[1]? = some "-i") ∧
    (dockerArgs "bash -l" containerName stdinIsTTY)[1]? = some "-i" ∧
    (dockerArgs "bash" containerName true)[1]? = some "-it" := by
  refine ⟨by rw [dockerArgs_eq]; rfl, ?_, ?_, ?_, ?_⟩
  · rw [dockerArgs_eq, ← isInteractiveShell_iff]
    by_cases h : (isInteractiveShell (Fields userCmd) && stdinIsTTY) = true
    · simp only [h, if_true]
      simp only [Bool.and_eq_true] at h
      simp [h.1, h.2]
    · simp only [h, if_false, Bool.false_eq_true]
      simp only [Bool.and_eq_true] at h
      have hne : ("-i" : String) ≠ "-it" := by decide
      simp only [List.getElem?_cons_succ, List.getElem?_cons_zero, Option.some.injEq, hne,
        false_iff, not_and]
      intro h1 h2
      exact h ⟨h2, h1⟩
  · intro hn
    rw [dockerArgs_eq]
    have h : ¬ (isInteractiveShell (Fields userCmd) && stdinIsTTY) = true := by
      simp only [Bool.and_eq_true, isInteractiveShell_iff]
      exact fun h => hn ⟨h.2, h.1⟩
    simp [h]
  · rw [dockerArgs_eq]
    have h : isInteractiveShell (Fields "bash -l") = false := by decide
    simp [h]
  · rw [dockerArgs_eq]
    have h : isInteractiveShell (Fields "bash") = true := by decide
    simp [h]

/-- C4 on concrete commands: `zsh` surrounded by blanks is an interactive
shell and gets `-it` on a terminal; `ls` is not and gets `-i`. -/
theorem tty_decision_witness :
    (dockerArgs " zsh\n" "web-1" true)[1]? = some "-it" ∧
    (dockerArgs "ls" "web-1" true)[1]? = some "-i" :=
  ⟨(tty_decision " zsh\n" "web-1" true).2.1.mpr ⟨rfl, ⟨"zsh", by decide, by decide⟩⟩,
   (tty_decision "ls" "web-1" true).2.2.1 (by
      rintro ⟨_, tok, h1, h2⟩
      have h : Fields "ls" = ["ls"] := by decide
      rw [h] at h1
      have h3 : tok = "ls" := by simpa using h1.symm
      subst h3
      revert h2
      decide)⟩

/-- C5 as stated fails: `ls<TAB>-la` contains white space and splits into two
tokens, yet the argument vector carries the two tokens and not a `sh -c`
wrapping of the command. -/
theorem shell_wrapping_decision_counterexample :
    (∃ ch ∈ "ls\t-la".data, IsSpace ch = true) ∧
    (Fields "ls\t-la").length = 2 ∧
    dockerArgs "ls\t-la" "web-1" false = ["exec", "-i", "web-1", "ls", "-la"] ∧
    ¬ ∃ flag, dockerArgs "ls\t-la" "web-1" false =
      ["exec", flag, "web-1", "sh", "-c", "ls\t-la"] := by
  refine ⟨by decide, by decide, by decide, ?_⟩
  rintro ⟨flag, h⟩
  have h2 : dockerArgs "ls\t-la" "web-1" false = ["exec", "-i", "web-1", "ls", "-la"] := by
    decide
  rw [h2] at h
  have h3 : ("ls" : String) = "sh" := by
    injection h with _ h
    injection h with _ h
    injection h with _ h
    injection h with h _
  revert h3
  decide

/-- C5, amended.  For every command, container name and TTY state: if the
command contains a shell metacharacter of the fixed set or a space character
(U+0020), the argument vector ends, after the container name, with `sh`,
`-c` and the whole original string; otherwise, also when the command
contains other white space such as a tab, it ends with the white-space
separated tokens of the command. -/
theorem shell_wrapping_decision (userCmd containerName : String) (stdinIsTTY : Bool) :
    (((∃ ch ∈ userCmd.data, ch ∈ metaChars) ∨ ' ' ∈ userCmd.data) →
      ∃ flag, dockerArgs userCmd containerName stdinIsTTY =
        ["exec", flag, containerName, "sh", "-c", userCmd]) ∧
    (¬ ((∃ ch ∈ userCmd.data, ch ∈ metaChars) ∨ ' ' ∈ userCmd.data) →
      ∃ flag, dockerArgs userCmd containerName stdinIsTTY =
        "exec" :: flag :: containerName :: Fields userCmd) := by
  rw [dockerArgs_eq, ← ContainsAny_shellChars_iff, ← Contains_space_iff]
  constructor
  · intro h
    have h2 : (ContainsAny userCmd shellChars || Contains userCmd " ") = true := by
      simpa [Bool.or_eq_true] using h
    rw [if_pos h2]
    exact ⟨_, rfl⟩
  · intro h
    have h2 : ¬ (ContainsAny userCmd shellChars || Contains userCmd " ") = true := by
      simpa [Bool.or_eq_true] using h
    rw [if_neg h2]
    exact ⟨_, rfl⟩

/-- C5 amended, on concrete commands: a pipe without any space is wrapped, a
single word is passed as it is, and two words separated by a tab are passed
as two arguments. -/
theorem shell_wrapping_decision_witness :
    (∃ flag, dockerArgs "ls|wc" "web-1" false = ["exec", flag, "web-1", "sh", "-c", "ls|wc"]) ∧
    (∃ flag, dockerArgs "ls" "web-1" false = "exec" :: flag :: "web-1" :: Fields "ls") ∧
    (∃ flag, dockerArgs "ls\t-la" "web-1" false =
      "exec" :: flag :: "web-1" :: Fields "ls\t-la") ∧
    Fields "ls" = ["ls"] ∧ Fields "ls\t-la" = ["ls", "-la"] :=
  ⟨(shell_wrapping_decision "ls|wc" "web-1" false).1 (by decide),
   (shell_wrapping_decision "ls" "web-1" false).2 (by decide),
   (shell_wrapping_decision "ls\t-la" "web-1" false).2 (by decide),
   by decide, by decide⟩

/-! ## Command resolution: lemmas -/

theorem TrimSpace_eq_empty_iff (s : String) :
    TrimSpace s = "" ↔ ∀ ch ∈ s.data, IsSpace ch = true := by
  have h0 : TrimSpace s = "" ↔ (TrimSpace s).data = [] :=
    ⟨fun h => by rw [h], fun h => String.ext h⟩
  rw [h0]
  show List.rdropWhile IsSpace (List.dropWhile IsSpace s.data) = [] ↔ _
  rw [List.rdropWhile_eq_nil_iff]
  constructor
  · intro h
    by_contra hne
    have hd : List.dropWhile IsSpace s.data ≠ [] := by
      intro he
      exact hne (List.dropWhile_eq_nil_iff.mp he)
    have h1 := List.head_dropWhile_not IsSpace s.data hd
    have h2 := h _ (List.head_mem hd)
    rw [h1] at h2
    cases h2
  · intro h x hx
    exact h x ((List.dropWhile_suffix IsSpace).subset hx)

theorem TrimSpace_has_nonspace (s : String) (h : TrimSpace s ≠ "") :
    ∃ ch ∈ (TrimSpace s).data, IsSpace ch = false := by
  have hne : List.rdropWhile IsSpace (List.dropWhile IsSpace s.data) ≠ [] := by
    intro he
    exact h (String.ext he)
  refine ⟨_, List.getLast_mem hne, ?_⟩
  have := List.rdropWhile_last_not IsSpace _ hne
  simpa using this

theorem rdropWhile_split (p : Char → Bool) (l : List Char) :
    l = List.rdropWhile p l ++ (List.takeWhile p l.reverse).reverse := by
  have h := congrArg List.reverse (List.takeWhile_append_dropWhile p l.reverse)
  rw [List.reverse_append, List.reverse_reverse] at h
  exact h.symm

theorem TrimSpace_isTrimmedOf (s : String) : IsTrimmedOf (TrimSpace s) s := by
  have hsplit := rdropWhile_split IsSpace (List.dropWhile IsSpace s.data)
  refine ⟨List.takeWhile IsSpace s.data,
    (List.takeWhile IsSpace (List.dropWhile IsSpace s.data).reverse).reverse, ?_, ?_, ?_, ?_, ?_⟩
  · show s.data = List.takeWhile IsSpace s.data ++
      List.rdropWhile IsSpace (List.dropWhile IsSpace s.data) ++ _
    rw [List.append_assoc, ← hsplit, List.takeWhile_append_dropWhile]
  · intro ch hch
    exact List.mem_takeWhile_imp hch
  · intro ch hch
    exact List.mem_takeWhile_imp (List.mem_reverse.mp hch)
  · intro ch hch
    change (List.rdropWhile IsSpace (List.dropWhile IsSpace s.data)).head? = some ch at hch
    have hhead : (List.dropWhile IsSpace s.data).head? = some ch := by
      rw [hsplit, List.head?_append, hch]
      rfl
    have h := List.head?_dropWhile_not IsSpace s.data
    rw [hhead] at h
    exact h
  · intro ch hch
    change (List.rdropWhile IsSpace (List.dropWhile IsSpace s.data)).getLast? = some ch at hch
    have hne : List.rdropWhile IsSpace (List.dropWhile IsSpace s.data) ≠ [] := by
      intro he
      rw [he] at hch
      cases hch
    have hlast := List.rdropWhile_last_not IsSpace _ hne
    rw [List.getLast?_eq_getLast _ hne] at hch
    cases hch
    simpa using hlast

theorem TrimSpace_append_newline (line : String) :
    TrimSpace ⟨line.data ++ ['\n']⟩ = TrimSpace line := by
  apply String.ext
  show List.rdropWhile IsSpace (List.dropWhile IsSpace (line.data ++ ['\n'])) =
    List.rdropWhile IsSpace (List.dropWhile IsSpace line.data)
  have hnl : IsSpace '\n' = true := by decide
  rw [List.dropWhile_append]
  by_cases h : (List.dropWhile IsSpace line.data).isEmpty = true
  · rw [if_pos h]
    have h2 : List.dropWhile IsSpace line.data = [] := List.isEmpty_iff.mp h
    rw [h2]
    simp [List.dropWhile, hnl]
  · rw [if_neg h, List.rdropWhile_concat_pos _ _ _ hnl]

theorem readUntil_none (delim : Char) (l : List Char) (h : delim ∉ l) :
    readUntil delim l = none := by
  induction l with
  | nil => rfl
  | cons c cs ih =>
    have hc : c ≠ delim := fun he => h (he ▸ List.mem_cons_self _ _)
    have hcs : delim ∉ cs := fun hm => h (List.mem_cons_of_mem _ hm)
    simp [readUntil, hc, ih hcs]

theorem readUntil_line (delim : Char) (line rest : List Char) (h : delim ∉ line) :
    readUntil delim (line ++ delim :: rest) = some (line ++ [delim]) := by
  induction line with
  | nil => simp [readUntil]
  | cons c cs ih =>
    have hc : c ≠ delim := fun he => h (he ▸ List.mem_cons_self _ _)
    have hcs : delim ∉ cs := fun hm => h (List.mem_cons_of_mem _ hm)
    simp [readUntil, hc, ih hcs]

theorem resolveCommand_noPrompt (stdin : Stdin) :
    resolveCommand "" true stdin = ([], .ok "bash") := rfl

/-- The prompted branch when standard input holds a line. -/
theorem resolveCommand_line (line rest : List Char) (endErr : String) (h : '\n' ∉ line) :
    resolveCommand "" false ⟨⟨line ++ '\n' :: rest⟩, endErr⟩ =
      (promptEffects,
        .ok (if TrimSpace ⟨line⟩ = "" then "bash" else TrimSpace ⟨line⟩)) := by
  have hread : ReadString ⟨⟨line ++ '\n' :: rest⟩, endErr⟩ '\n' = (⟨line ++ ['\n']⟩, none) := by
    simp [ReadString, readUntil_line '\n' line rest h]
  have htrim := TrimSpace_append_newline ⟨line⟩
  simp only at htrim
  simp only [resolveCommand, hread, htrim, promptEffects]
  by_cases he : TrimSpace ⟨line⟩ = ""
  · simp [he]
  · simp [he]

/-- The prompted branch when standard input ends before a newline. -/
theorem resolveCommand_noline (stdin : Stdin) (h : '\n' ∉ stdin.pending.data) :
    resolveCommand "" false stdin =
      (promptEffects, .error ("failed to read command: " ++ stdin.endErr)) := by
  have hread : ReadString stdin '\n' = (stdin.pending, some stdin.endErr) := by
    simp [ReadString, readUntil_none '\n' _ h]
  simp [resolveCommand, hread, promptEffects]

theorem launch_message_ne (text : String) (n : Int) :
    "failed to execute docker exec: " ++ text ≠ "command exited with status " ++ toString n := by
  intro h
  have h2 := congrArg (fun s : String => s.data.head?) h
  simp [String.data_append] at h2

/-! ## Command resolution: the claims -/

/-- C6. Command resolution without the prompt.  For every no-prompt flag and
every standard input: a supplied (non-empty) explicit command is the resolved
command exactly as given; and with no explicit command and no-prompt set the
resolved command is `bash`.  In both cases nothing is written and standard
input is not read. -/
theorem command_resolution_priority (command : String) (noPrompt : Bool) (stdin : Stdin) :
    (command ≠ "" → resolveCommand command noPrompt stdin = ([], .ok command)) ∧
    resolveCommand "" true stdin = ([], .ok "bash") := by
  constructor
  · intro h
    simp [resolveCommand, h]
  · exact resolveCommand_noPrompt stdin

/-- C6 on a concrete input: an explicit command with blanks around it is kept
as it is, with or without `--no-prompt`, whatever waits on standard input. -/
theorem command_resolution_priority_witness :
    resolveCommand "  ls -la " true ⟨"top\n", "EOF"⟩ = ([], .ok "  ls -la ") ∧
    resolveCommand "  ls -la " false ⟨"top\n", "EOF"⟩ = ([], .ok "  ls -la ") :=
  ⟨(command_resolution_priority "  ls -la " true ⟨"top\n", "EOF"⟩).1 (by decide),
   (command_resolution_priority "  ls -la " false ⟨"top\n", "EOF"⟩).1 (by decide)⟩

/-- C7. Prompt-default law.  With no explicit command and no-prompt unset,
for every line read at the prompt (the text before the first newline of
standard input): the prompt is written, standard input is read, and the
resolved command is the line with the surrounding white space trimmed, or
`bash` when that is empty, which is exactly when the line is empty or all
white space; the value is then the one that no-prompt yields. -/
theorem prompt_default_law (line rest endErr : String) (h : '\n' ∉ line.data) :
    resolveCommand "" false ⟨line ++ "\n" ++ rest, endErr⟩ =
        (promptEffects, .ok (if TrimSpace line = "" then "bash" else TrimSpace line)) ∧
    IsTrimmedOf (TrimSpace line) line ∧
    (TrimSpace line = "" ↔ ∀ ch ∈ line.data, IsSpace ch = true) ∧
    ((∀ ch ∈ line.data, IsSpace ch = true) →
      (resolveCommand "" false ⟨line ++ "\n" ++ rest, endErr⟩).2 =
        (resolveCommand "" true ⟨line ++ "\n" ++ rest, endErr⟩).2) := by
  have hs : line ++ "\n" ++ rest = ⟨line.data ++ '\n' :: rest.data⟩ := by
    apply String.ext
    simp [String.data_append]
  have hres := resolveCommand_line line.data rest.data endErr h
  rw [← hs] at hres
  refine ⟨hres, TrimSpace_isTrimmedOf line, TrimSpace_eq_empty_iff line, ?_⟩
  intro hall
  rw [hres, resolveCommand_noPrompt]
  simp [(TrimSpace_eq_empty_iff line).mpr hall]

/-- C7 on concrete lines: a command between blanks is trimmed, and a line of
blanks and a tab resolves to `bash`. -/
theorem prompt_default_law_witness :
    resolveCommand "" false ⟨"  ls -la \r" ++ "\n" ++ "more", "EOF"⟩ =
      (promptEffects, .ok "ls -la") ∧
    resolveCommand "" false ⟨" \t " ++ "\n" ++ "", "EOF"⟩ = (promptEffects, .ok "bash") :=
  ⟨(prompt_default_law "  ls -la \r" "more" "EOF" (by decide)).1,
   (prompt_default_law " \t " "" "EOF" (by decide)).1⟩

/-- C9 as stated fails: when standard input ends after the content `ls`
without a newline, resolution fails with `failed to read command: EOF`
instead of resolving to `ls`. -/
theorem prompt_read_errors_counterexample :
    resolveCommand "" false ⟨"ls", "EOF"⟩ =
      (promptEffects, .error "failed to read command: EOF") ∧
    resolveCommand "" false ⟨"ls", "EOF"⟩ ≠ (promptEffects, .ok "ls") := by
  decide

/-- C9, amended.  In the prompted branch resolution fails with
`failed to read command: ...` whenever the read of the line returns an
error, that is when standard input ends (at end of stream or by another read
failure) before a newline, also after some content; when standard input
holds a newline, resolution does not fail and the resolved command is the
text before the first newline, trimmed, or `bash` if that is empty. -/
theorem prompt_read_errors (stdin : Stdin) :
    ('\n' ∉ stdin.pending.data →
      resolveCommand "" false stdin =
        (promptEffects, .error ("failed to read command: " ++ stdin.endErr))) ∧
    ('\n' ∈ stdin.pending.data →
      ∃ line rest : List Char, stdin.pending.data = line ++ '\n' :: rest ∧ '\n' ∉ line ∧
        resolveCommand "" false stdin =
          (promptEffects, .ok (if TrimSpace ⟨line⟩ = "" then "bash" else TrimSpace ⟨line⟩))) := by
  constructor
  · exact resolveCommand_noline stdin
  · intro h
    obtain ⟨line, rest, hsplit, hline⟩ := List.eq_append_cons_of_mem h
    have hst : stdin = ⟨⟨line ++ '\n' :: rest⟩, stdin.endErr⟩ := by
      cases stdin with
      | mk pending endErr =>
        simp only [Stdin.mk.injEq, and_true]
        exact String.ext hsplit
    refine ⟨line, rest, hsplit, hline, ?_⟩
    rw [hst]
    exact resolveCommand_line line rest stdin.endErr hline

/-- C9 amended, on concrete inputs: content without a newline is an error at
end of stream, and so is empty input; a terminated line resolves. -/
theorem prompt_read_errors_witness :
    resolveCommand "" false ⟨"ls", "EOF"⟩ =
      (promptEffects, .error "failed to read command: EOF") ∧
    resolveCommand "" false ⟨"", "EOF"⟩ =
      (promptEffects, .error "failed to read command: EOF") ∧
    resolveCommand "" false ⟨"ls\n", "EOF"⟩ = (promptEffects, .ok "ls") ∧
    ∃ line rest : List Char, "ls\n".data = line ++ '\n' :: rest ∧ '\n' ∉ line ∧
      resolveCommand "" false ⟨"ls\n", "EOF"⟩ =
        (promptEffects, .ok (if TrimSpace ⟨line⟩ = "" then "bash" else TrimSpace ⟨line⟩)) :=
  ⟨(prompt_read_errors ⟨"ls", "EOF"⟩).1 (by decide),
   (prompt_read_errors ⟨"", "EOF"⟩).1 (by decide),
   by decide,
   (prompt_read_errors ⟨"ls\n", "EOF"⟩).2 (by decide)⟩

/-! ## The argument vector names a command -/

/-- C10. The argument vector always names a command.  For every command
with at least one non-white-space character, every container name and either
TTY state, the argument vector is `exec`, a mode flag (`-it` or `-i`), the
container name and then at least one further element, none of them empty.
Every command resolved without an explicit command flag, from the prompt or
as the no-prompt default, has such a character. -/
theorem dockerArgs_names_command (userCmd containerName : String) (stdinIsTTY : Bool)
    (h : ∃ ch ∈ userCmd.data, IsSpace ch = false) :
    (∃ flag first rest,
      dockerArgs userCmd containerName stdinIsTTY =
        "exec" :: flag :: containerName :: first :: rest ∧
      (flag = "-it" ∨ flag = "-i") ∧ ∀ a ∈ first :: rest, a ≠ "") ∧
    (∀ (noPrompt : Bool) (stdin : Stdin) (es : List Effect) (resolved : String),
      resolveCommand "" noPrompt stdin = (es, .ok resolved) →
      ∃ ch ∈ resolved.data, IsSpace ch = false) := by
  constructor
  · have hflag := modeFlag_cases
    rw [dockerArgs_eq]
    by_cases hw : (ContainsAny userCmd shellChars || Contains userCmd " ") = true
    · refine ⟨_, "sh", ["-c", userCmd], by rw [if_pos hw], hflag _, ?_⟩
      have hne : userCmd ≠ "" := by
        rintro rfl
        obtain ⟨ch, hch, _⟩ := h
        simp at hch
      intro a ha
      simp only [List.mem_cons, List.mem_singleton, List.not_mem_nil, or_false] at ha
      rcases ha with rfl | rfl | rfl
      · decide
      · decide
      · exact hne
    · have hnil := Fields_ne_nil userCmd h
      have hemp := Fields_ne_empty userCmd
      match hf : Fields userCmd, hnil, hemp with
      | first :: rest, _, hemp =>
        exact ⟨_, first, rest, by rw [if_neg hw], hflag _, hemp⟩
  · intro noPrompt stdin es resolved hres
    have hbash : ∃ ch ∈ ("bash" : String).data, IsSpace ch = false := by decide
    cases noPrompt with
    | true =>
      rw [resolveCommand_noPrompt stdin] at hres
      simp only [Prod.mk.injEq, Outcome.ok.injEq] at hres
      rw [← hres.2]
      exact hbash
    | false =>
      by_cases hnl : '\n' ∈ stdin.pending.data
      · obtain ⟨line, rest, hsplit, hline⟩ := List.eq_append_cons_of_mem hnl
        have hst : stdin = ⟨⟨line ++ '\n' :: rest⟩, stdin.endErr⟩ := by
          cases stdin with
          | mk pending endErr =>
            simp only [Stdin.mk.injEq, and_true]
            exact String.ext hsplit
        rw [hst, resolveCommand_line line rest stdin.endErr hline] at hres
        simp only [Prod.mk.injEq, Outcome.ok.injEq] at hres
        rw [← hres.2]
        by_cases he : TrimSpace ⟨line⟩ = ""
        · rw [if_pos he]
          exact hbash
        · rw [if_neg he]
          exact TrimSpace_has_nonspace _ he
      · rw [resolveCommand_noline stdin hnl] at hres
        simp at hres

/-- C10 on concrete commands: a single word between tabs, which is not
wrapped, still yields the word as the command to run. -/
theorem dockerArgs_names_command_witness :
    (∃ ch ∈ "\tls\t".data, IsSpace ch = false) ∧
    dockerArgs "\tls\t" "web-1" true = ["exec", "-i", "web-1", "ls"] ∧
    ∃ flag first rest,
      dockerArgs "\tls\t" "web-1" true = "exec" :: flag :: "web-1" :: first :: rest ∧
      (flag = "-it" ∨ flag = "-i") ∧ ∀ a ∈ first :: rest, a ≠ "" :=
  ⟨by decide, by decide, (dockerArgs_names_command "\tls\t" "web-1" true (by decide)).1⟩

/-! ## Running the child: the claim -/

/-- C8. Exit-code propagation.  In every run that reaches `docker exec` (the
container list is not empty, selection and command resolution succeed): a
child that exits with code 0 makes `run` succeed; a child that exits with a
non-zero code `n` makes `run` fail with `command exited with status n`; and a
child that cannot be started or run makes `run` fail with
`failed to execute docker exec: ...`, which is never the message of a
non-zero exit. -/
theorem exit_code_propagation (env : Env) (C : List Container) (sel : Selected)
    (userCmd : String) (e1 e2 : List Effect)
    (hcl : env.clientErr = none) (hC : env.containerList = .ok C) (hne : C ≠ [])
    (hsel : selectContainer env.lower env.find env.filter C = (e1, .ok sel))
    (hres : resolveCommand env.command env.noPrompt env.stdin = (e2, .ok userCmd)) :
    (env.child (dockerArgs userCmd sel.containerName env.stdinIsTTY) = .exited 0 →
      (run env).2 = .ok ()) ∧
    (∀ n : Int, n ≠ 0 →
      env.child (dockerArgs userCmd sel.containerName env.stdinIsTTY) = .exited n →
      (run env).2 = .error ("command exited with status " ++ toString n)) ∧
    (∀ text : String,
      env.child (dockerArgs userCmd sel.containerName env.stdinIsTTY) = .failed text →
      (run env).2 = .error ("failed to execute docker exec: " ++ text) ∧
      ∀ n : Int, (run env).2 ≠ .error ("command exited with status " ++ toString n)) := by
  rw [run_exec env C sel userCmd e1 e2 hcl hC hne hsel hres]
  refine ⟨?_, ?_, ?_⟩
  · intro h
    simp [h, cmdRun, execResult]
  · intro n hn h
    simp [h, cmdRun, execResult, hn]
  · intro text h
    simp only [h, cmdRun, execResult, true_and]
    intro n hcontra
    exact launch_message_ne text n (Outcome.error.inj hcontra)

/-- C8, the scenarios of the specification: with filter `nginx` and
`--no-prompt` on a terminal, `docker exec -it web-1 bash` is run; exit code 7
is reported as `command exited with status 7`, exit code 0 is success, and a
launch failure is reported as such. -/
theorem exit_code_propagation_witness :
    run (scenario "nginx" (.exited 7)) =
      ([.stdout "Auto-selected container: web-1\n", .exec ["exec", "-it", "web-1", "bash"]],
        .error "command exited with status 7") ∧
    (run (scenario "nginx" (.exited 7))).2 = .error ("command exited with status " ++ "7") ∧
    (run (scenario "nginx" (.exited 0))).2 = .ok () ∧
    (run (scenario "nginx" (.failed "exec: \"docker\": executable file not found in $PATH"))).2 =
      .error ("failed to execute docker exec: " ++
        "exec: \"docker\": executable file not found in $PATH") :=
  ⟨by decide,
   (exit_code_propagation (scenario "nginx" (.exited 7)) [web1, db1] ⟨web1, "web-1"⟩ "bash"
      [.stdout "Auto-selected container: web-1\n"] [] rfl rfl (by decide) (by decide)
      (by decide)).2.1 7 (by decide) rfl,
   (exit_code_propagation (scenario "nginx" (.exited 0)) [web1, db1] ⟨web1, "web-1"⟩ "bash"
      [.stdout "Auto-selected container: web-1\n"] [] rfl rfl (by decide) (by decide)
      (by decide)).1 rfl,
   ((exit_code_propagation
      (scenario "nginx" (.failed "exec: \"docker\": executable file not found in $PATH"))
      [web1, db1] ⟨web1, "web-1"⟩ "bash"
      [.stdout "Auto-selected container: web-1\n"] [] rfl rfl (by decide) (by decide)
      (by decide)).2.2 _ rfl).1⟩

end ContainerSelector
